import Mathlib

/-!
# Solana Payment Verification System — shallow embedding

A shallow embedding of `src/solana-payment-system.js` (class
`SolanaPaymentSystem`).  Conventions of the embedding:

* JavaScript numbers are modelled as exact rationals `ℚ` where the source
  mixes SOL amounts (possibly fractional) with lamport quantities; ledger
  balances (`preBalances`/`postBalances`) are integral lamports `ℤ`;
  timestamps (`Date.now()` milliseconds, `expiresAt`, `createdAt`) are `ℕ`.
  Where a claim hinges on IEEE-754 binary64 rounding, a separate explicit
  rounding model `fl` is used (see the binary64 section below).
* The mutable `this.pendingPayments` object (string keys, insertion
  ordered) is an association list `List (String × Payment)`; updating an
  existing key keeps its position, a fresh key is appended, matching
  JavaScript property-order semantics.
* `Date.now()` readings are passed as explicit `now : ℕ` parameters; the
  several readings inside one method body are modelled as a single reading.
* The RPC connection is passed in: `sigsRes : Option (List SigInfo)` is the
  result of `getSignaturesForAddress` (`none` models the call throwing,
  which the `try/catch` turns into `return false`), and
  `fetchTx : String → Option Tx` is `getTransaction` (`none` models a
  `null` transaction, which the code skips).
* `sig.blockTime` may be `null` in the RPC reply; JavaScript evaluates
  `null * 1000` to `0`, which `blockTimeMs` reproduces for `none`.
* Thrown `Error`s become `Except String`; expressions that would be `NaN`
  (indexing past the end of a balance array) are modelled with `Option`
  lookups whose failure makes the comparison false, exactly as `NaN < x`
  is false in JavaScript.
-/

set_option maxRecDepth 4000

/-- `payment.status`: one of `'pending' | 'confirmed' | 'expired'`. -/
inductive Status where
  | pending
  | confirmed
  | expired
deriving DecidableEq, Repr

/-- One record of `this.pendingPayments` (lines 56–63 of the source). -/
structure Payment where
  userId : String
  amountLamports : ℚ
  status : Status
  createdAt : ℕ
  expiresAt : ℕ
  metadata : String
  confirmedAt : Option ℕ
  transactionSignature : Option String
deriving DecidableEq, Repr

/-- An element of the `getSignaturesForAddress` reply: a signature string
and a block time in seconds, possibly `null`. -/
structure SigInfo where
  signature : String
  blockTime : Option ℤ
deriving DecidableEq, Repr

/-- `tx.meta`: success flag and the pre/post balance arrays (lamports). -/
structure TxMeta where
  err : Bool
  preBalances : List ℤ
  postBalances : List ℤ
deriving DecidableEq, Repr

/-- A transaction as returned by `getTransaction`: optional metadata and
`tx.transaction.message.accountKeys` as strings. -/
structure Tx where
  meta : Option TxMeta
  accountKeys : List String
deriving DecidableEq, Repr

/-- The state of a `SolanaPaymentSystem` instance: the treasury wallet
address, the configured payment timeout (ms) and the payment store. -/
structure SPS where
  treasuryWallet : String
  paymentTimeout : ℕ
  pendingPayments : List (String × Payment)
deriving DecidableEq, Repr

/-- Replace the payment store of a system state. -/
def withStore (s : SPS) (store : List (String × Payment)) : SPS :=
  { s with pendingPayments := store }

/-- `LAMPORTS_PER_SOL` from `@solana/web3.js`. -/
def LAMPORTS_PER_SOL : ℚ := 1000000000

/-- `this.pendingPayments[paymentId]` — first entry with the given key. -/
def lookupPayment : List (String × Payment) → String → Option Payment
  | [], _ => none
  | (k, p) :: rest, id => if k = id then some p else lookupPayment rest id

/-- `this.pendingPayments[paymentId] = p` — JavaScript object assignment:
an existing key keeps its position, a new key is appended at the end. -/
def setPayment : List (String × Payment) → String → Payment → List (String × Payment)
  | [], id, p => [(id, p)]
  | (k, q) :: rest, id, p =>
      if k = id then (id, p) :: rest else (k, q) :: setPayment rest id p

/-- The value returned by `createPaymentRequest` (lines 65–71); the ISO
string of `expiresAt` is modelled by the underlying instant. -/
structure CreateResp where
  paymentId : String
  userId : String
  walletAddress : String
  amountSol : ℚ
  expiresAt : ℕ
deriving DecidableEq, Repr

/-- `createPaymentRequest(userId, amountSol, metadata)` (lines 43–72).
`now` stands for the `Date.now()` readings of the call and `rand` for
`crypto.randomBytes(4).toString('hex')`.  On a thrown error the state is
returned unchanged. -/
def createPaymentRequest (s : SPS) (userId : String) (amountSol : ℚ)
    (metadata : String) (now : ℕ) (rand : String) :
    Except String CreateResp × SPS :=
  if userId = "" then (.error "User ID is required", s)
  else if amountSol ≤ 0 then (.error "Amount must be greater than 0", s)
  else
    let paymentId := "payment_" ++ userId ++ "_" ++ toString now ++ "_" ++ rand
    let payment : Payment :=
      { userId := userId
        amountLamports := amountSol * LAMPORTS_PER_SOL
        status := .pending
        createdAt := now
        expiresAt := now + s.paymentTimeout
        metadata := metadata
        confirmedAt := none
        transactionSignature := none }
    (.ok { paymentId := paymentId
           userId := userId
           walletAddress := s.treasuryWallet
           amountSol := amountSol
           expiresAt := payment.expiresAt },
     withStore s (setPayment s.pendingPayments paymentId payment))

/-- `new Date(sig.blockTime * 1000)` as a millisecond instant; JavaScript
evaluates `null * 1000` to `0`, so a `null` block time contributes `0`. -/
def blockTimeMs : Option ℤ → ℤ
  | some t => t * 1000
  | none => 0

/-- The inner account loop (lines 122–136): walk `accountKeys` with its
index; at an entry equal to the treasury wallet compute
`postBalances[i] - preBalances[i]` and test
`Math.abs(balanceChange - amountLamports) < 1000`.  A balance array too
short for the index yields `NaN` in JavaScript, whose comparison is false,
modelled here by the failing `Option` lookup. -/
def scanAccounts (treasury : String) (expected : ℚ)
    (pre post : List ℤ) : List String → ℕ → Bool
  | [], _ => false
  | key :: keys, i =>
      if key = treasury then
        match pre.get? i, post.get? i with
        | some a, some b =>
            if |((b - a : ℤ) : ℚ) - expected| < 1000 then true
            else scanAccounts treasury expected pre post keys (i + 1)
        | _, _ => scanAccounts treasury expected pre post keys (i + 1)
      else scanAccounts treasury expected pre post keys (i + 1)

/-- One iteration of the signature loop body (lines 111–136): skip a
`null` transaction, missing metadata or a reported error, otherwise run
the account scan. -/
def txMatchAttempt (treasury : String) (expected : ℚ) : Option Tx → Bool
  | none => false
  | some tx =>
      match tx.meta with
      | none => false
      | some m =>
          if m.err then false
          else scanAccounts treasury expected m.preBalances m.postBalances
            tx.accountKeys 0

/-- The signature loop (lines 110–137): first transaction that matches
wins; its signature is recorded. -/
def scanSigs (fetchTx : String → Option Tx) (treasury : String)
    (expected : ℚ) : List SigInfo → Option String
  | [] => none
  | sig :: rest =>
      if txMatchAttempt treasury expected (fetchTx sig.signature) then
        some sig.signature
      else scanSigs fetchTx treasury expected rest

/-- `checkPaymentStatus(paymentId)` (lines 79–145).  `now` is the
`Date.now()` readings of the call, `sigsRes` the reply of
`getSignaturesForAddress` (`none` = the RPC threw, caught at line 141),
`fetchTx` the reply of `getTransaction` per signature. -/
def checkPaymentStatus (s : SPS) (paymentId : String) (now : ℕ)
    (sigsRes : Option (List SigInfo)) (fetchTx : String → Option Tx) :
    Except String (Bool × SPS) :=
  match lookupPayment s.pendingPayments paymentId with
  | none => .error "Payment not found"
  | some payment =>
      if payment.status = .confirmed then .ok (true, s)
      else if payment.expiresAt < now then
        .ok (false, withStore s (setPayment s.pendingPayments paymentId
          { payment with status := .expired }))
      else
        match sigsRes with
        | none => .ok (false, s)
        | some sigs =>
            let relevant := sigs.filter
              (fun sig => (payment.createdAt : ℤ) ≤ blockTimeMs sig.blockTime)
            match scanSigs fetchTx s.treasuryWallet payment.amountLamports relevant with
            | some sigName =>
                .ok (true, withStore s (setPayment s.pendingPayments paymentId
                  { payment with
                      status := .confirmed
                      confirmedAt := some now
                      transactionSignature := some sigName }))
            | none => .ok (false, s)

/-- Outcome of one polling iteration of `waitForPaymentConfirmation`. -/
inductive WaitOutcome where
  | notFound
  | confirmedCb
  | expiredCb
  | continuePolling
deriving DecidableEq, Repr

/-- One iteration of the `checkPayment` polling closure inside
`waitForPaymentConfirmation` (lines 153–195): the only state effect is the
inner `checkPaymentStatus` call; afterwards the callback fires on
confirmation or on observed expiry, otherwise the next poll is scheduled. -/
def waitForPaymentConfirmationStep (s : SPS) (paymentId : String) (now : ℕ)
    (sigsRes : Option (List SigInfo)) (fetchTx : String → Option Tx) :
    WaitOutcome × SPS :=
  match lookupPayment s.pendingPayments paymentId with
  | none => (.notFound, s)
  | some payment =>
      match checkPaymentStatus s paymentId now sigsRes fetchTx with
      | .error _ => (.notFound, s)
      | .ok (true, s') => (.confirmedCb, s')
      | .ok (false, s') =>
          if payment.expiresAt < now then (.expiredCb, s')
          else (.continuePolling, s')

/-- One summary element of the `getUserPendingPayments` result
(lines 205–211); ISO strings are modelled by the underlying instants. -/
structure PendingSummary where
  paymentId : String
  userId : String
  amountSol : ℚ
  createdAt : ℕ
  expiresAt : ℕ
deriving DecidableEq, Repr

/-- The `.map` body of `getUserPendingPayments`: the reference-equality
`find` over `Object.keys` recovers exactly the entry's own key. -/
def mkSummary (k : String) (p : Payment) : PendingSummary :=
  { paymentId := k
    userId := p.userId
    amountSol := p.amountLamports / LAMPORTS_PER_SOL
    createdAt := p.createdAt
    expiresAt := p.expiresAt }

/-- `getUserPendingPayments(userId)` (lines 202–212): filter the store by
user and `'pending'` status, then summarise.  Note the source consults no
clock here. -/
def getUserPendingPayments (s : SPS) (userId : String) : List PendingSummary :=
  (s.pendingPayments.filter
      (fun kv => kv.2.userId = userId ∧ kv.2.status = .pending)).map
    (fun kv => mkSummary kv.1 kv.2)

/-- `cleanupExpiredPayments()` (lines 217–227): delete every record whose
status is `'expired'` or `'confirmed'` and whose `createdAt` is more than
24 h (86 400 000 ms) before `now`. -/
def cleanupExpiredPayments (s : SPS) (now : ℕ) : SPS :=
  withStore s (s.pendingPayments.filter
    (fun kv => ¬((kv.2.status = .expired ∨ kv.2.status = .confirmed) ∧
      (86400000 : ℤ) < (now : ℤ) - (kv.2.createdAt : ℤ))))

/-- The status of the record stored under `id`, if any. -/
def statusOf (s : SPS) (id : String) : Option Status :=
  (lookupPayment s.pendingPayments id).map Payment.status

/-- The inputs of one `checkPaymentStatus` call: the clock reading and the
gateway's replies during that call. -/
structure CheckCall where
  now : ℕ
  sigsRes : Option (List SigInfo)
  fetchTx : String → Option Tx

/-- Run a sequence of `checkPaymentStatus` calls on one payment id,
collecting each call's outcome and threading the state. -/
def runCheckSeq (id : String) : SPS → List CheckCall → List (Except String Bool) × SPS
  | s, [] => ([], s)
  | s, c :: rest =>
      match checkPaymentStatus s id c.now c.sigsRes c.fetchTx with
      | .ok (b, s') =>
          let r := runCheckSeq id s' rest
          (.ok b :: r.1, r.2)
      | .error e =>
          let r := runCheckSeq id s rest
          (.error e :: r.1, r.2)

/-- The confirmed record used to instantiate `cleanupExpiredPayments_spec`. -/
def sweepDemoConfirmed : Payment :=
  { userId := "u1", amountLamports := 5, status := .confirmed,
    createdAt := 0, expiresAt := 1800000, metadata := "",
    confirmedAt := some 10, transactionSignature := some "sg" }

/-- The pending record used to instantiate `cleanupExpiredPayments_spec`. -/
def sweepDemoPending : Payment :=
  { userId := "u1", amountLamports := 5, status := .pending,
    createdAt := 0, expiresAt := 1800000, metadata := "",
    confirmedAt := none, transactionSignature := none }

/-- The system state used to instantiate `cleanupExpiredPayments_spec`: a
confirmed record and a pending record, both created 25 h before the
sweep. -/
def sweepDemoState : SPS :=
  { treasuryWallet := "T", paymentTimeout := 1800000,
    pendingPayments := [("c", sweepDemoConfirmed), ("p", sweepDemoPending)] }

/-- The pending record used to instantiate `checkPaymentStatus_timeWindow`. -/
def timeWindowDemoPayment : Payment :=
  { userId := "u1", amountLamports := 5000, status := .pending,
    createdAt := 5000, expiresAt := 1805000, metadata := "",
    confirmedAt := none, transactionSignature := none }

/-- The system state used to instantiate `checkPaymentStatus_timeWindow`. -/
def timeWindowDemoState : SPS :=
  { treasuryWallet := "T", paymentTimeout := 1800000,
    pendingPayments := [("p1", timeWindowDemoPayment)] }

/-- The pending record used to instantiate `checkPaymentStatus_expiry_law`. -/
def expiryDemoPayment : Payment :=
  { userId := "u1", amountLamports := 5000, status := .pending,
    createdAt := 1, expiresAt := 10, metadata := "",
    confirmedAt := none, transactionSignature := none }

/-- The state used to instantiate `checkPaymentStatus_expiry_law`. -/
def expiryDemoState : SPS :=
  { treasuryWallet := "T", paymentTimeout := 9,
    pendingPayments := [("p1", expiryDemoPayment)] }

/-- The later call used to instantiate `checkPaymentStatus_expiry_law`: at
clock 12 the gateway reports a perfectly matching transaction. -/
def expiryDemoLateCall : CheckCall :=
  { now := 12
    sigsRes := some [{ signature := "match", blockTime := some 1 }]
    fetchTx := fun _ => some { meta := some { err := false, preBalances := [0],
                                              postBalances := [5000] },
                               accountKeys := ["T"] } }

/-- A single-account transfer transaction as the gateway would report it:
the treasury is the only account key, with the given pre/post balances. -/
def simpleTransferTx (treasury : String) (pre post : ℤ) : Tx :=
  { meta := some { err := false, preBalances := [pre], postBalances := [post] },
    accountKeys := [treasury] }

/-- The pending record used to instantiate `checkPaymentStatus_tolerance`. -/
def toleranceDemoPayment : Payment :=
  { userId := "u1", amountLamports := 5000, status := .pending,
    createdAt := 100, expiresAt := 1800100, metadata := "",
    confirmedAt := none, transactionSignature := none }

/-- The system state used to instantiate `checkPaymentStatus_tolerance`. -/
def toleranceDemoState : SPS :=
  { treasuryWallet := "T", paymentTimeout := 1800000,
    pendingPayments := [("p1", toleranceDemoPayment)] }

/-- Modelled from the spec: `listPending(payerRef)` as §4.1 words it, for
refinement comparison with `getUserPendingPayments` — all records of the
payer with `status == pending` AND `now < expiresAt` (the source function
consults no clock; the spec's ordering clause coincides with store order
here since records are kept in insertion order). -/
def listPendingSpec (s : SPS) (userId : String) (now : ℕ) : List PendingSummary :=
  (s.pendingPayments.filter
      (fun kv => kv.2.userId = userId ∧ kv.2.status = .pending ∧
        now < kv.2.expiresAt)).map
    (fun kv => mkSummary kv.1 kv.2)

/-- A pending record whose expiry instant (10) is already past, for the
comparison of `getUserPendingPayments` with `listPendingSpec`. -/
def stalePendingDemoPayment : Payment :=
  { userId := "u1", amountLamports := 5, status := .pending,
    createdAt := 1, expiresAt := 10, metadata := "",
    confirmedAt := none, transactionSignature := none }

/-- The state holding `stalePendingDemoPayment`. -/
def stalePendingDemoState : SPS :=
  { treasuryWallet := "T", paymentTimeout := 9,
    pendingPayments := [("p1", stalePendingDemoPayment)] }

/-- Two fresh pending records of one payer, createdAt-sorted, used to
instantiate `getUserPendingPayments_spec`. -/
def pendingListDemoState : SPS :=
  { treasuryWallet := "T", paymentTimeout := 1800000,
    pendingPayments :=
      [("a", { userId := "u1", amountLamports := 5, status := .pending,
               createdAt := 1, expiresAt := 1800001, metadata := "",
               confirmedAt := none, transactionSignature := none }),
       ("b", { userId := "u1", amountLamports := 5, status := .pending,
               createdAt := 2, expiresAt := 1800002, metadata := "",
               confirmedAt := none, transactionSignature := none })] }

/-- A fetched candidate transaction that is anomalous in shape for the
scan of `checkPaymentStatus`: the transaction is `null`, its metadata is
missing, the ledger reports it failed, or its balance arrays have no entry
at any position where the account list holds the treasury address (the
case of the treasury being absent from the account list is the vacuous
instance of the last disjunct). -/
def AnomalousTx (treasury : String) (otx : Option Tx) : Prop :=
  otx = none ∨
  ∃ tx, otx = some tx ∧
    (tx.meta = none ∨
     ∃ m, tx.meta = some m ∧
       (m.err = true ∨
        ∀ i, tx.accountKeys.get? i = some treasury →
          m.preBalances.get? i = none ∨ m.postBalances.get? i = none))

/-- The pending record used for the anomaly-scan facts (expected amount
5000 lamports). -/
def anomalyDemoPayment : Payment :=
  { userId := "u1", amountLamports := 5000, status := .pending,
    createdAt := 100, expiresAt := 1800100, metadata := "",
    confirmedAt := none, transactionSignature := none }

/-- The system state holding `anomalyDemoPayment`. -/
def anomalyDemoState : SPS :=
  { treasuryWallet := "T", paymentTimeout := 1800000,
    pendingPayments := [("p1", anomalyDemoPayment)] }

/-- A gateway `getTransaction` stub: `"a1"` is a `null` transaction,
`"a2"` is a successful transfer not involving the treasury, and any other
signature is a matching 5000-lamport transfer to the treasury. -/
def anomalyDemoFetch : String → Option Tx := fun sg =>
  if sg = "a1" then none
  else if sg = "a2" then
    some { meta := some { err := false, preBalances := [1], postBalances := [6000] },
           accountKeys := ["x"] }
  else some (simpleTransferTx "T" 0 5000)

/-- A transaction whose balance arrays are shorter than its account list
but still cover the treasury's position 0. -/
def shortBalancesDemoTx : Tx :=
  { meta := some { err := false, preBalances := [0], postBalances := [5000] },
    accountKeys := ["T", "x"] }

/-- `anomalyDemoPayment` after the short-balances transaction `"s1"` is
matched at clock 200. -/
def shortBalancesDemoConfirmed : Payment :=
  { userId := "u1", amountLamports := 5000, status := .confirmed,
    createdAt := 100, expiresAt := 1800100, metadata := "",
    confirmedAt := some 200, transactionSignature := some "s1" }

/-- The state reached from `anomalyDemoState` by that match. -/
def shortBalancesDemoResult : SPS :=
  { treasuryWallet := "T", paymentTimeout := 1800000,
    pendingPayments := [("p1", shortBalancesDemoConfirmed)] }

/-- The well-formed matching signature used to instantiate
`checkPaymentStatus_anomaly_tolerance`. -/
def anomalyDemoGoodSig : SigInfo := { signature := "g", blockTime := some 1 }

/-- Binary64 model — `⌊log2 n⌋` by fuelled structural recursion (the
kernel reduces `Nat.div` on literals, but not the well-founded
`Nat.log2`); fuel 600 covers every magnitude this file evaluates. -/
def log2fuel : ℕ → ℕ → ℕ
  | 0, _ => 0
  | fuel + 1, n => if n < 2 then 0 else log2fuel fuel (n / 2) + 1

/-- Round `n / d` (both positive) to the nearest integer, ties to even. -/
def roundNEDiv (n d : ℤ) : ℤ :=
  let q := n / d
  let r := n % d
  if d < 2 * r then q + 1
  else if 2 * r < d then q
  else if q % 2 = 0 then q else q + 1

/-- IEEE-754 binary64 rounding (round to nearest, ties to even) of the
positive rational `n / d`: find the binary exponent `e` with
`2 ^ e ≤ n / d < 2 ^ (e + 1)` (via `⌊log2 (n · 2 ^ 200 / d)⌋ − 200`,
exact for magnitudes in `[2 ^ −200, 2 ^ 400)` — far beyond any JavaScript
number this file evaluates; overflow and subnormals are not modelled),
then round the 53-bit significand. -/
def flPos (n : ℤ) (d : ℕ) : ℚ :=
  let e : ℤ := (log2fuel 600 ((n.toNat * 2 ^ 200) / d) : ℤ) - 200
  let shift := e - 52
  let m := if 0 ≤ shift then roundNEDiv n ((d : ℤ) * 2 ^ shift.toNat)
           else roundNEDiv (n * 2 ^ (-shift).toNat) d
  if 0 ≤ shift then mkRat (m * 2 ^ shift.toNat) 1 else mkRat m (2 ^ (-shift).toNat)

/-- Binary64 rounding of a rational, extended by sign symmetry. -/
def fl (q : ℚ) : ℚ :=
  if q = 0 then 0
  else if q < 0 then -flPos (-q.num) q.den
  else flPos q.num q.den

/-- JavaScript `a * b` on numbers: the exact product, correctly rounded. -/
def jsMul (a b : ℚ) : ℚ := fl (a * b)

/-- JavaScript `a / b` on numbers: the exact quotient, correctly rounded. -/
def jsDiv (a b : ℚ) : ℚ := fl (a / b)

/-- Line 58 (`amountSol * LAMPORTS_PER_SOL`) under explicit binary64
semantics. -/
def jsStoredLamports (amountSol : ℚ) : ℚ := jsMul amountSol LAMPORTS_PER_SOL

/-- Line 208 (`payment.amountLamports / LAMPORTS_PER_SOL`) under explicit
binary64 semantics. -/
def jsListedAmountSol (amountLamports : ℚ) : ℚ :=
  jsDiv amountLamports LAMPORTS_PER_SOL

/-- The double `0.9677999949201714 = 1089645924122913 / 2 ^ 50` (its
significand has 51 bits, so it is exactly representable in binary64). -/
def roundTripDemoAmount : ℚ := mkRat 1089645924122913 1125899906842624

/-- The double `2 ^ −30` SOL — below one lamport, but accepted by
`createPaymentRequest` since it is positive. -/
def nonIntegralDemoAmount : ℚ := mkRat 1 1073741824

/-- One operation of the public interface, tagged with the `Date.now()`
reading and the gateway replies the call sees.  `createPaymentRequest` is
deliberately absent: the monotonicity claim ranges over the four
read/verify/sweep operations. -/
inductive Op where
  | check (paymentId : String) (now : ℕ) (sigsRes : Option (List SigInfo))
      (fetchTx : String → Option Tx)
  | waitStep (paymentId : String) (now : ℕ) (sigsRes : Option (List SigInfo))
      (fetchTx : String → Option Tx)
  | listPend (userId : String) (now : ℕ)
  | cleanup (now : ℕ)

/-- The clock reading of an operation. -/
def opNow : Op → ℕ
  | .check _ n _ _ => n
  | .waitStep _ n _ _ => n
  | .listPend _ n => n
  | .cleanup n => n

/-- The state after a `checkPaymentStatus` call (a thrown `Payment not
found` leaves the state as it was). -/
def checkStateOf (s : SPS) (id : String) (now : ℕ)
    (sr : Option (List SigInfo)) (ft : String → Option Tx) : SPS :=
  match checkPaymentStatus s id now sr ft with
  | .ok (_, s') => s'
  | .error _ => s

/-- Apply one operation to the state (`getUserPendingPayments` is
read-only, so `listPend` returns the state unchanged). -/
def applyOp (s : SPS) : Op → SPS
  | .check id now sr ft => checkStateOf s id now sr ft
  | .waitStep id now sr ft => (waitForPaymentConfirmationStep s id now sr ft).2
  | .listPend _ _ => s
  | .cleanup now => cleanupExpiredPayments s now

/-- Run a sequence of operations. -/
def runOps (s : SPS) : List Op → SPS := List.foldl applyOp s

/-- The clock readings of a trace are at least `t` and non-decreasing. -/
def monoFrom : ℕ → List Op → Prop
  | _, [] => True
  | t, op :: rest => t ≤ opNow op ∧ monoFrom (opNow op) rest

/-- Store well-formedness at clock `t`: ids are unique (JavaScript object
keys) and every expired record's `expiresAt` already lies in the past —
both hold in any state the system itself reaches under a monotone clock. -/
def WFStore (s : SPS) (t : ℕ) : Prop :=
  (s.pendingPayments.map Prod.fst).Nodup ∧
  ∀ kv ∈ s.pendingPayments, kv.2.status = .expired → kv.2.expiresAt < t

/-- The admissible evolutions of one record's observable status across a
single operation: unchanged, `pending → confirmed`, `pending → expired`,
or deletion of a terminal record by the sweep. -/
def StatusStep (a b : Option Status) : Prop :=
  b = a ∨
  (a = some .pending ∧ (b = some .confirmed ∨ b = some .expired)) ∨
  ((a = some .confirmed ∨ a = some .expired) ∧ b = none)

/-- The pending record of the non-monotone-clock trace (expiry at 10). -/
def backclockDemoPayment : Payment :=
  { userId := "u1", amountLamports := 5000, status := .pending,
    createdAt := 1, expiresAt := 10, metadata := "",
    confirmedAt := none, transactionSignature := none }

/-- The state holding `backclockDemoPayment`. -/
def backclockDemoState : SPS :=
  { treasuryWallet := "T", paymentTimeout := 9,
    pendingPayments := [("p1", backclockDemoPayment)] }

/-- First call: at clock 11 (past expiry), gateway empty. -/
def backclockOp1 : Op := .check "p1" 11 (some []) (fun _ => none)

/-- Second call: the clock reads 5 — earlier than the previous call — and
the gateway reports a matching transaction. -/
def backclockOp2 : Op :=
  .check "p1" 5 (some [{ signature := "m", blockTime := some 1 }])
    (fun _ => some (simpleTransferTx "T" 0 5000))

/-- A fresh pending record for the monotone-trace instantiation. -/
def monotoneDemoState : SPS :=
  { treasuryWallet := "T", paymentTimeout := 1800000,
    pendingPayments := [("p1",
      { userId := "u1", amountLamports := 5000, status := .pending,
        createdAt := 100, expiresAt := 1800100, metadata := "",
        confirmedAt := none, transactionSignature := none })] }

/-! ## Theorems -/

theorem lookupPayment_setPayment_self (store : List (String × Payment))
    (id : String) (p : Payment) :
    lookupPayment (setPayment store id p) id = some p := by
  induction store with
  | nil => simp [setPayment, lookupPayment]
  | cons kv rest ih =>
      obtain ⟨k, q⟩ := kv
      by_cases h : k = id
      · simp [setPayment, h, lookupPayment]
      · simp [setPayment, h, lookupPayment, ih]

theorem lookupPayment_setPayment_ne (store : List (String × Payment))
    (id id' : String) (p : Payment) (h : id' ≠ id) :
    lookupPayment (setPayment store id p) id' = lookupPayment store id' := by
  induction store with
  | nil => simp [setPayment, lookupPayment, Ne.symm h]
  | cons kv rest ih =>
      obtain ⟨k, q⟩ := kv
      by_cases hk : k = id
      · subst hk
        simp [setPayment, lookupPayment, Ne.symm h]
      · simp only [setPayment, if_neg hk, lookupPayment]
        by_cases hk' : k = id'
        · simp [hk']
        · simp [hk', ih]

theorem mem_setPayment_self (store : List (String × Payment))
    (id : String) (p : Payment) :
    (id, p) ∈ setPayment store id p := by
  induction store with
  | nil => simp [setPayment]
  | cons kv rest ih =>
      obtain ⟨k, q⟩ := kv
      by_cases h : k = id
      · simp [setPayment, h]
      · simp only [setPayment, if_neg h]
        exact List.mem_cons_of_mem _ ih

theorem mem_setPayment (store : List (String × Payment))
    (id : String) (p : Payment) (kv : String × Payment) :
    kv ∈ setPayment store id p → kv = (id, p) ∨ kv ∈ store := by
  induction store with
  | nil => intro h; simpa [setPayment] using h
  | cons kv' rest ih =>
      obtain ⟨k, q⟩ := kv'
      by_cases hk : k = id
      · intro h
        simp only [setPayment, if_pos hk, List.mem_cons] at h
        rcases h with h | h
        · exact Or.inl h
        · exact Or.inr (List.mem_cons_of_mem _ h)
      · intro h
        simp only [setPayment, if_neg hk, List.mem_cons] at h
        rcases h with h | h
        · exact Or.inr (by simp [h])
        · rcases ih h with h' | h'
          · exact Or.inl h'
          · exact Or.inr (List.mem_cons_of_mem _ h')

theorem setPayment_map_fst (store : List (String × Payment))
    (id : String) (p q : Payment) :
    lookupPayment store id = some q →
    (setPayment store id p).map Prod.fst = store.map Prod.fst := by
  induction store with
  | nil => intro h; simp [lookupPayment] at h
  | cons kv rest ih =>
      obtain ⟨k, v⟩ := kv
      by_cases hk : k = id
      · intro _; simp [setPayment, hk]
      · intro h
        simp only [lookupPayment, if_neg hk] at h
        simp [setPayment, if_neg hk, ih h]

theorem lookupPayment_eq_none_of_not_mem (store : List (String × Payment))
    (id : String) (h : id ∉ store.map Prod.fst) :
    lookupPayment store id = none := by
  induction store with
  | nil => rfl
  | cons kv rest ih =>
      obtain ⟨k, v⟩ := kv
      simp only [List.map_cons, List.mem_cons] at h
      push_neg at h
      simp [lookupPayment, Ne.symm h.1, ih h.2]

theorem lookupPayment_mem (store : List (String × Payment))
    (id : String) (p : Payment) :
    lookupPayment store id = some p → (id, p) ∈ store := by
  induction store with
  | nil => intro h; simp [lookupPayment] at h
  | cons kv rest ih =>
      obtain ⟨k, v⟩ := kv
      by_cases hk : k = id
      · subst hk
        intro h
        rw [lookupPayment, if_pos rfl] at h
        cases h
        exact List.mem_cons_self _ _
      · intro h
        rw [lookupPayment, if_neg hk] at h
        exact List.mem_cons_of_mem _ (ih h)

theorem lookupPayment_filter (store : List (String × Payment))
    (q : String × Payment → Bool) (id : String) :
    (store.map Prod.fst).Nodup →
    lookupPayment (store.filter q) id =
      (lookupPayment store id).bind (fun p => if q (id, p) then some p else none) := by
  induction store with
  | nil => intro _; simp [lookupPayment]
  | cons kv rest ih =>
      obtain ⟨k, v⟩ := kv
      intro hnd
      simp only [List.map_cons, List.nodup_cons] at hnd
      by_cases hk : k = id
      · subst hk
        by_cases hq : q (k, v)
        · simp [List.filter_cons, hq, lookupPayment]
        · have hnone : lookupPayment (rest.filter q) k = none := by
            apply lookupPayment_eq_none_of_not_mem
            intro hm
            apply hnd.1
            rcases List.mem_map.1 hm with ⟨kv', hkv', hfst⟩
            exact List.mem_map.2 ⟨kv', (List.mem_filter.1 hkv').1, hfst⟩
          simp [List.filter_cons, hq, hnone, lookupPayment]
      · by_cases hq : q (k, v)
        · simp [List.filter_cons, hq, lookupPayment, hk, ih hnd.2]
        · simp [List.filter_cons, hq, lookupPayment, hk, ih hnd.2]

/-- C7: for non-empty `userId` and `amountSol > 0`, `createPaymentRequest`
succeeds and stores a record with status `pending`, `createdAt = now` and
`expiresAt = createdAt + paymentTimeout`; for an empty `userId` or
`amountSol ≤ 0` it throws and leaves the store untouched. -/
theorem createPaymentRequest_spec (s : SPS) (userId : String) (amountSol : ℚ)
    (metadata : String) (now : ℕ) (rand : String) :
    (userId ≠ "" → 0 < amountSol →
      ∃ resp s', createPaymentRequest s userId amountSol metadata now rand =
          (.ok resp, s') ∧
        lookupPayment s'.pendingPayments resp.paymentId = some
          { userId := userId
            amountLamports := amountSol * LAMPORTS_PER_SOL
            status := .pending
            createdAt := now
            expiresAt := now + s.paymentTimeout
            metadata := metadata
            confirmedAt := none
            transactionSignature := none } ∧
        resp.expiresAt = now + s.paymentTimeout ∧
        resp.userId = userId ∧ resp.walletAddress = s.treasuryWallet ∧
        resp.amountSol = amountSol) ∧
    ((userId = "" ∨ amountSol ≤ 0) →
      ∃ e, createPaymentRequest s userId amountSol metadata now rand =
        (.error e, s)) := by
  constructor
  · intro hu ha
    simp only [createPaymentRequest, if_neg hu, if_neg (not_le.2 ha)]
    refine ⟨_, _, rfl, ?_, rfl, rfl, rfl, rfl⟩
    exact lookupPayment_setPayment_self _ _ _
  · rintro (hu | ha)
    · exact ⟨"User ID is required", by simp [createPaymentRequest, hu]⟩
    · by_cases hu : userId = ""
      · exact ⟨"User ID is required", by simp [createPaymentRequest, hu]⟩
      · exact ⟨"Amount must be greater than 0",
          by simp [createPaymentRequest, hu, ha]⟩

/-- Concrete instantiation of `createPaymentRequest_spec`. -/
theorem createPaymentRequest_spec_witness :
    (∃ resp s',
      createPaymentRequest
          { treasuryWallet := "T", paymentTimeout := 1800000, pendingPayments := [] }
          "u1" 2 "m" 100 "abcd" = (.ok resp, s') ∧
      lookupPayment s'.pendingPayments resp.paymentId = some
        { userId := "u1"
          amountLamports := 2 * LAMPORTS_PER_SOL
          status := .pending
          createdAt := 100
          expiresAt := 100 + 1800000
          metadata := "m"
          confirmedAt := none
          transactionSignature := none } ∧
      resp.expiresAt = 100 + 1800000 ∧
      resp.userId = "u1" ∧ resp.walletAddress = "T" ∧ resp.amountSol = 2) ∧
    (∃ e, createPaymentRequest
        { treasuryWallet := "T", paymentTimeout := 1800000, pendingPayments := [] }
        "u1" 0 "m" 100 "abcd" = (.error e,
          { treasuryWallet := "T", paymentTimeout := 1800000, pendingPayments := [] })) :=
  ⟨(createPaymentRequest_spec
      { treasuryWallet := "T", paymentTimeout := 1800000, pendingPayments := [] }
      "u1" 2 "m" 100 "abcd").1 (by decide) (by norm_num),
   (createPaymentRequest_spec
      { treasuryWallet := "T", paymentTimeout := 1800000, pendingPayments := [] }
      "u1" 0 "m" 100 "abcd").2 (Or.inr le_rfl)⟩

/-- C8: on a store with unique ids (as JavaScript objects guarantee), a
sweep deletes exactly the terminal (`confirmed`/`expired`) records older
than the 24 h retention; any other record — in particular every `pending`
record, however old — is kept verbatim, and no record appears from
nowhere. -/
theorem cleanupExpiredPayments_spec (s : SPS) (now : ℕ)
    (hnd : (s.pendingPayments.map Prod.fst).Nodup) (id : String) :
    (∀ p, lookupPayment s.pendingPayments id = some p →
      (((p.status = .expired ∨ p.status = .confirmed) ∧
          (86400000 : ℤ) < (now : ℤ) - (p.createdAt : ℤ)) →
        lookupPayment (cleanupExpiredPayments s now).pendingPayments id = none) ∧
      (¬((p.status = .expired ∨ p.status = .confirmed) ∧
          (86400000 : ℤ) < (now : ℤ) - (p.createdAt : ℤ)) →
        lookupPayment (cleanupExpiredPayments s now).pendingPayments id = some p)) ∧
    (lookupPayment s.pendingPayments id = none →
      lookupPayment (cleanupExpiredPayments s now).pendingPayments id = none) := by
  have hcl : (cleanupExpiredPayments s now).pendingPayments =
      s.pendingPayments.filter
        (fun kv => ¬((kv.2.status = .expired ∨ kv.2.status = .confirmed) ∧
          (86400000 : ℤ) < (now : ℤ) - (kv.2.createdAt : ℤ))) := rfl
  have hfilter := lookupPayment_filter s.pendingPayments
    (fun kv => ¬((kv.2.status = .expired ∨ kv.2.status = .confirmed) ∧
      (86400000 : ℤ) < (now : ℤ) - (kv.2.createdAt : ℤ))) id hnd
  constructor
  · intro p hp
    constructor
    · intro hc
      rw [hcl, hfilter, hp]
      simp
      exact ⟨fun h => hc.1.resolve_left h, by omega⟩
    · intro hc
      rw [hcl, hfilter, hp]
      simp
      intro h
      by_contra h'
      push_neg at h'
      apply hc
      refine ⟨?_, by omega⟩
      by_cases he : p.status = .expired
      · exact Or.inl he
      · exact Or.inr (h he)
  · intro hp
    rw [hcl, hfilter, hp]
    rfl

/-- Concrete instantiation of `cleanupExpiredPayments_spec`: at
`now = 90000000` (25 h) the 25 h-old confirmed record is removed while the
equally old pending record survives verbatim. -/
theorem cleanupExpiredPayments_spec_witness :
    lookupPayment (cleanupExpiredPayments sweepDemoState 90000000).pendingPayments
      "c" = none ∧
    lookupPayment (cleanupExpiredPayments sweepDemoState 90000000).pendingPayments
      "p" = some sweepDemoPending :=
  ⟨((cleanupExpiredPayments_spec sweepDemoState 90000000 (by decide) "c").1
      sweepDemoConfirmed (by decide)).1 (by decide),
   ((cleanupExpiredPayments_spec sweepDemoState 90000000 (by decide) "p").1
      sweepDemoPending (by decide)).2 (by decide)⟩

/-- C3: on a pending, unexpired record, a batch in which every signature
has a block time strictly before `createdAt` — or no block time at all —
produces no match: the call returns `false` without error and the state is
untouched, whatever `getTransaction` would have answered. -/
theorem checkPaymentStatus_timeWindow (s : SPS) (id : String) (now : ℕ)
    (p : Payment) (hp : lookupPayment s.pendingPayments id = some p)
    (hpend : p.status = .pending) (hexp : ¬ p.expiresAt < now)
    (hcr : 0 < p.createdAt) (sigs : List SigInfo)
    (hold : ∀ sig ∈ sigs, sig.blockTime = none ∨
      ∃ t, sig.blockTime = some t ∧ t * 1000 < (p.createdAt : ℤ))
    (fetchTx : String → Option Tx) :
    checkPaymentStatus s id now (some sigs) fetchTx = .ok (false, s) := by
  have hfilter : sigs.filter
      (fun sig => (p.createdAt : ℤ) ≤ blockTimeMs sig.blockTime) = [] := by
    rw [List.filter_eq_nil_iff]
    intro sig hsig
    rcases hold sig hsig with hnone | ⟨t, hbt, hlt⟩
    · simp [hnone, blockTimeMs]
      omega
    · simp [hbt, blockTimeMs]
      exact hlt
  rw [checkPaymentStatus, hp]
  simp only [hpend, reduceCtorEq, if_false, if_neg hexp]
  rw [hfilter]
  rfl

/-- Concrete instantiation of `checkPaymentStatus_timeWindow`: a too-early
transaction and an untimed one are both ignored even though each would
have matched the amount. -/
theorem checkPaymentStatus_timeWindow_witness :
    checkPaymentStatus timeWindowDemoState "p1" 6000
      (some [{ signature := "old", blockTime := some 4 },
             { signature := "untimed", blockTime := none }])
      (fun _ => some { meta := some { err := false, preBalances := [0],
                                      postBalances := [5000] },
                       accountKeys := ["T"] }) =
    .ok (false, timeWindowDemoState) :=
  checkPaymentStatus_timeWindow timeWindowDemoState "p1" 6000
    timeWindowDemoPayment (by decide) (by decide) (by decide) (by decide) _
    (by
      intro sig hsig
      simp only [List.mem_cons, List.mem_singleton, List.not_mem_nil,
        or_false] at hsig
      rcases hsig with h | h
      · right
        refine ⟨4, by simp [h], by simp [h, timeWindowDemoPayment]⟩
      · left
        simp [h]) _

/-- A `checkPaymentStatus` call that reaches the expiry test (i.e. the
record is not confirmed) with `now > expiresAt` returns `false` and leaves
the record expired in place. -/
theorem checkPaymentStatus_expired_step (s : SPS) (id : String) (now : ℕ)
    (sr : Option (List SigInfo)) (ft : String → Option Tx)
    (p : Payment) (hp : lookupPayment s.pendingPayments id = some p)
    (hst : p.status ≠ .confirmed) (hexp : p.expiresAt < now) :
    checkPaymentStatus s id now sr ft =
      .ok (false, withStore s (setPayment s.pendingPayments id
        { p with status := .expired })) ∧
    lookupPayment (setPayment s.pendingPayments id { p with status := .expired }) id =
      some { p with status := .expired } :=
  ⟨by rw [checkPaymentStatus, hp]; simp [if_neg hst, if_pos hexp],
   lookupPayment_setPayment_self _ _ _⟩

/-- Once a record is expired, every further `checkPaymentStatus` call at a
clock past `expiresAt` returns `false` and keeps the record expired. -/
theorem runCheckSeq_expired (id : String) (calls : List CheckCall) :
    ∀ s p, lookupPayment s.pendingPayments id = some p →
    p.status = .expired → (∀ c ∈ calls, p.expiresAt < c.now) →
    (∀ r ∈ (runCheckSeq id s calls).1, r = .ok false) ∧
    statusOf (runCheckSeq id s calls).2 id = some .expired := by
  induction calls with
  | nil =>
      intro s p hp hst _
      exact ⟨by intro r hr; simp [runCheckSeq] at hr,
        by simp [runCheckSeq, statusOf, hp, hst]⟩
  | cons c rest ih =>
      intro s p hp hst hc
      have hnc : p.status ≠ .confirmed := by rw [hst]; decide
      have hstep := checkPaymentStatus_expired_step s id c.now c.sigsRes c.fetchTx
        p hp hnc (hc c (List.mem_cons_self c rest))
      have hrec := ih
        (withStore s (setPayment s.pendingPayments id { p with status := .expired }))
        { p with status := .expired } hstep.2 rfl
        (fun c' hc' => hc c' (List.mem_cons_of_mem c hc'))
      constructor
      · intro r hr
        simp only [runCheckSeq, hstep.1] at hr
        rcases List.mem_cons.1 hr with h | h
        · exact h
        · exact hrec.1 r h
      · simp only [runCheckSeq, hstep.1]
        exact hrec.2

/-- C2: once a `checkPaymentStatus` call observes `now > expiresAt` on a
not-yet-confirmed record, that call returns `false`, the record becomes
expired, and every subsequent call at the same or a later clock reading —
whatever signatures and transactions the gateway then reports — also
returns `false`. -/
theorem checkPaymentStatus_expiry_law (s : SPS) (id : String)
    (p : Payment) (hp : lookupPayment s.pendingPayments id = some p)
    (hst : p.status ≠ .confirmed) (c : CheckCall) (hexp : p.expiresAt < c.now)
    (later : List CheckCall) (hlater : ∀ c' ∈ later, c.now ≤ c'.now) :
    (∀ r ∈ (runCheckSeq id s (c :: later)).1, r = .ok false) ∧
    statusOf (runCheckSeq id s (c :: later)).2 id = some .expired := by
  have hstep := checkPaymentStatus_expired_step s id c.now c.sigsRes c.fetchTx
    p hp hst hexp
  have hrec := runCheckSeq_expired id later
    (withStore s (setPayment s.pendingPayments id { p with status := .expired }))
    { p with status := .expired } hstep.2 rfl
    (fun c' hc' => lt_of_lt_of_le hexp (hlater c' hc'))
  constructor
  · intro r hr
    simp only [runCheckSeq, hstep.1] at hr
    rcases List.mem_cons.1 hr with h | h
    · exact h
    · exact hrec.1 r h
  · simp only [runCheckSeq, hstep.1]
    exact hrec.2

/-- Concrete instantiation of `checkPaymentStatus_expiry_law`: after the
call at clock 11 expires the record, the call at clock 12 still returns
`false` although the gateway now reports a matching transaction. -/
theorem checkPaymentStatus_expiry_law_witness :
    (∀ r ∈ (runCheckSeq "p1" expiryDemoState
        [{ now := 11, sigsRes := some [], fetchTx := fun _ => none },
         expiryDemoLateCall]).1, r = .ok false) ∧
    statusOf (runCheckSeq "p1" expiryDemoState
        [{ now := 11, sigsRes := some [], fetchTx := fun _ => none },
         expiryDemoLateCall]).2 "p1" = some .expired :=
  checkPaymentStatus_expiry_law expiryDemoState "p1" expiryDemoPayment
    (by decide) (by decide)
    { now := 11, sigsRes := some [], fetchTx := fun _ => none } (by decide)
    [expiryDemoLateCall]
    (by
      intro c' hc'
      rcases List.mem_singleton.1 hc' with rfl
      decide)

/-- C4: for a pending, unexpired record whose expected amount is the
integer `A` of lamports, a candidate transaction passing the time filter
whose treasury balance delta is `A - 999` is matched and confirms the
payment, while one whose delta is exactly `A - 1000` is not matched — the
tolerance test `Math.abs(delta - expected) < 1000` is exclusive at the
boundary. -/
theorem checkPaymentStatus_tolerance (s : SPS) (id : String) (now : ℕ)
    (p : Payment) (hp : lookupPayment s.pendingPayments id = some p)
    (hpend : p.status = .pending) (hexp : ¬ p.expiresAt < now)
    (A : ℤ) (hA : p.amountLamports = (A : ℚ))
    (sig : SigInfo) (t : ℤ) (hbt : sig.blockTime = some t)
    (ht : (p.createdAt : ℤ) ≤ t * 1000) (pre : ℤ) :
    (∃ s', checkPaymentStatus s id now (some [sig])
        (fun _ => some (simpleTransferTx s.treasuryWallet pre (pre + (A - 999)))) =
          .ok (true, s') ∧
        statusOf s' id = some .confirmed) ∧
    checkPaymentStatus s id now (some [sig])
        (fun _ => some (simpleTransferTx s.treasuryWallet pre (pre + (A - 1000)))) =
      .ok (false, s) := by
  have hfilter : [sig].filter
      (fun sg => (p.createdAt : ℤ) ≤ blockTimeMs sg.blockTime) = [sig] := by
    simp [List.filter_cons, hbt, blockTimeMs, ht]
  have hdelta999 : ((pre + (A - 999) - pre : ℤ) : ℚ) - p.amountLamports = -999 := by
    rw [hA]; push_cast; ring
  have hdelta1000 : ((pre + (A - 1000) - pre : ℤ) : ℚ) - p.amountLamports = -1000 := by
    rw [hA]; push_cast; ring
  have harith999 : |((pre + (A - 999) - pre : ℤ) : ℚ) - p.amountLamports| < 1000 := by
    rw [hdelta999]; norm_num
  have harith1000 : ¬ |((pre + (A - 1000) - pre : ℤ) : ℚ) - p.amountLamports| < 1000 := by
    rw [hdelta1000]; norm_num
  have hmatch : scanAccounts s.treasuryWallet p.amountLamports
      [pre] [pre + (A - 999)] [s.treasuryWallet] 0 = true := by
    rw [scanAccounts, if_pos rfl]
    show (if |((pre + (A - 999) - pre : ℤ) : ℚ) - p.amountLamports| < 1000 then true
      else scanAccounts s.treasuryWallet p.amountLamports
        [pre] [pre + (A - 999)] [] 1) = true
    rw [if_pos harith999]
  have hnomatch : scanAccounts s.treasuryWallet p.amountLamports
      [pre] [pre + (A - 1000)] [s.treasuryWallet] 0 = false := by
    rw [scanAccounts, if_pos rfl]
    show (if |((pre + (A - 1000) - pre : ℤ) : ℚ) - p.amountLamports| < 1000 then true
      else scanAccounts s.treasuryWallet p.amountLamports
        [pre] [pre + (A - 1000)] [] 1) = false
    rw [if_neg harith1000, scanAccounts]
  constructor
  · refine ⟨withStore s (setPayment s.pendingPayments id
        { p with status := .confirmed, confirmedAt := some now,
                 transactionSignature := some sig.signature }), ?_, ?_⟩
    · rw [checkPaymentStatus, hp]
      simp only [hpend, reduceCtorEq, if_false, if_neg hexp, hfilter]
      rw [scanSigs]
      simp [txMatchAttempt, simpleTransferTx, hmatch]
    · simp [statusOf, withStore, lookupPayment_setPayment_self]
  · rw [checkPaymentStatus, hp]
    simp only [hpend, reduceCtorEq, if_false, if_neg hexp, hfilter]
    rw [scanSigs]
    simp [txMatchAttempt, simpleTransferTx, hnomatch, scanSigs]

/-- Concrete instantiation of `checkPaymentStatus_tolerance`: expected
5000 lamports; a delta of 4001 (= 5000 − 999) confirms, a delta of 4000
(= 5000 − 1000) does not. -/
theorem checkPaymentStatus_tolerance_witness :
    (∃ s', checkPaymentStatus toleranceDemoState "p1" 200
        (some [{ signature := "s9", blockTime := some 1 }])
        (fun _ => some (simpleTransferTx "T" 7 (7 + (5000 - 999)))) =
          .ok (true, s') ∧
        statusOf s' "p1" = some .confirmed) ∧
    checkPaymentStatus toleranceDemoState "p1" 200
        (some [{ signature := "s9", blockTime := some 1 }])
        (fun _ => some (simpleTransferTx "T" 7 (7 + (5000 - 1000)))) =
      .ok (false, toleranceDemoState) :=
  checkPaymentStatus_tolerance toleranceDemoState "p1" 200 toleranceDemoPayment
    (by decide) (by decide) (by decide) 5000 (by norm_num [toleranceDemoPayment])
    { signature := "s9", blockTime := some 1 } 1 rfl (by decide) 7

/-- C5 counterexample: `getUserPendingPayments` applies no expiry filter.
At clock 20 the stored record (whose `expiresAt` is 10) is already past
expiry yet still returned, so the function differs from the spec's
`listPending` (which would return the empty list). -/
theorem getUserPendingPayments_expiry_counterexample :
    (mkSummary "p1" stalePendingDemoPayment).expiresAt < 20 ∧
    getUserPendingPayments stalePendingDemoState "u1" =
      [mkSummary "p1" stalePendingDemoPayment] ∧
    listPendingSpec stalePendingDemoState "u1" 20 = [] ∧
    getUserPendingPayments stalePendingDemoState "u1" ≠
      listPendingSpec stalePendingDemoState "u1" 20 := by
  have h1 : getUserPendingPayments stalePendingDemoState "u1" =
      [mkSummary "p1" stalePendingDemoPayment] := rfl
  have h2 : listPendingSpec stalePendingDemoState "u1" 20 = [] := rfl
  exact ⟨by decide, h1, h2, by rw [h1, h2]; simp⟩

/-- C5 amended: `getUserPendingPayments` returns exactly the summaries of
the payer's records whose status is `pending` — with no test of
`expiresAt` against any clock — in store (insertion) order; whenever the
store is `createdAt`-sorted the result is therefore `createdAt`-ascending.
As a pure function of the state it is read-only and recomputed per call. -/
theorem getUserPendingPayments_spec (s : SPS) (userId : String) :
    (∀ sm, sm ∈ getUserPendingPayments s userId ↔
      ∃ k p, (k, p) ∈ s.pendingPayments ∧ p.userId = userId ∧
        p.status = .pending ∧ sm = mkSummary k p) ∧
    (s.pendingPayments.Pairwise (fun a b => a.2.createdAt ≤ b.2.createdAt) →
      (getUserPendingPayments s userId).Pairwise
        (fun a b => a.createdAt ≤ b.createdAt)) := by
  constructor
  · intro sm
    simp only [getUserPendingPayments, List.mem_map, List.mem_filter]
    constructor
    · rintro ⟨⟨k, p⟩, ⟨hmem, hcond⟩, rfl⟩
      simp only [decide_eq_true_eq] at hcond
      exact ⟨k, p, hmem, hcond.1, hcond.2, rfl⟩
    · rintro ⟨k, p, hmem, hu, hs, rfl⟩
      exact ⟨(k, p), ⟨hmem, by simp [hu, hs]⟩, rfl⟩
  · intro hsorted
    rw [getUserPendingPayments, List.pairwise_map]
    exact List.Pairwise.filter _ hsorted

/-- Concrete instantiation of `getUserPendingPayments_spec`: on a sorted
two-record store the listing is `createdAt`-ascending. -/
theorem getUserPendingPayments_spec_witness :
    (getUserPendingPayments pendingListDemoState "u1").Pairwise
      (fun a b => a.createdAt ≤ b.createdAt) :=
  (getUserPendingPayments_spec pendingListDemoState "u1").2 (by decide)

theorem scanAccounts_false_of_missing (treasury : String) (expected : ℚ)
    (pre post : List ℤ) :
    ∀ (keys : List String) (i : ℕ),
    (∀ j, keys.get? j = some treasury →
      pre.get? (i + j) = none ∨ post.get? (i + j) = none) →
    scanAccounts treasury expected pre post keys i = false := by
  intro keys
  induction keys with
  | nil => intro i _; rfl
  | cons k ks ih =>
      intro i h
      have hrec : ∀ j, ks.get? j = some treasury →
          pre.get? (i + 1 + j) = none ∨ post.get? (i + 1 + j) = none := by
        intro j hj
        have := h (j + 1) (by simpa using hj)
        rwa [show i + (j + 1) = i + 1 + j by omega] at this
      rw [scanAccounts]
      by_cases hk : k = treasury
      · rw [if_pos hk]
        have h0 := h 0 (by simp [hk])
        rw [Nat.add_zero] at h0
        rcases h0 with h0 | h0
        · rw [h0]
          exact ih (i + 1) hrec
        · rw [h0]
          cases hpre : pre.get? i
          · exact ih (i + 1) hrec
          · exact ih (i + 1) hrec
      · rw [if_neg hk]
        exact ih (i + 1) hrec

theorem txMatchAttempt_false_of_anomalous (treasury : String) (expected : ℚ)
    (otx : Option Tx) (h : AnomalousTx treasury otx) :
    txMatchAttempt treasury expected otx = false := by
  rcases h with h | ⟨tx, rfl, h⟩
  · rw [h]; rfl
  · rcases h with h | ⟨m, hm, h⟩
    · rw [txMatchAttempt, h]
    · rw [txMatchAttempt, hm]
      show (if m.err = true then false
        else scanAccounts treasury expected m.preBalances m.postBalances
          tx.accountKeys 0) = false
      rcases h with herr | hmiss
      · rw [if_pos herr]
      · cases herr : m.err
        · rw [if_neg (by simp)]
          exact scanAccounts_false_of_missing treasury expected _ _ _ 0
            (fun j hj => by rw [Nat.zero_add]; exact hmiss j hj)
        · rw [if_pos rfl]

theorem scanAccounts_true_of_match (treasury : String) (expected : ℚ)
    (pre post : List ℤ) :
    ∀ (keys : List String) (i j : ℕ), keys.get? j = some treasury →
    (∃ a b, pre.get? (i + j) = some a ∧ post.get? (i + j) = some b ∧
      |((b - a : ℤ) : ℚ) - expected| < 1000) →
    scanAccounts treasury expected pre post keys i = true := by
  intro keys
  induction keys with
  | nil => intro i j hj _; simp at hj
  | cons k ks ih =>
      intro i j hj hab
      rw [scanAccounts]
      cases j with
      | zero =>
          have hk : k = treasury := by simpa using hj
          rw [if_pos hk]
          obtain ⟨a, b, ha, hb, habs⟩ := hab
          rw [Nat.add_zero] at ha hb
          rw [ha, hb]
          show (if |((b - a : ℤ) : ℚ) - expected| < 1000 then true
            else scanAccounts treasury expected pre post ks (i + 1)) = true
          rw [if_pos habs]
      | succ j' =>
          have hj' : ks.get? j' = some treasury := by simpa using hj
          have hab' : ∃ a b, pre.get? (i + 1 + j') = some a ∧
              post.get? (i + 1 + j') = some b ∧
              |((b - a : ℤ) : ℚ) - expected| < 1000 := by
            obtain ⟨a, b, ha, hb, habs⟩ := hab
            refine ⟨a, b, ?_, ?_, habs⟩
            · rwa [show i + 1 + j' = i + (j' + 1) by omega]
            · rwa [show i + 1 + j' = i + (j' + 1) by omega]
          by_cases hk : k = treasury
          · rw [if_pos hk]
            cases hpre : pre.get? i with
            | none => exact ih (i + 1) j' hj' hab'
            | some a0 =>
                cases hpost : post.get? i with
                | none => exact ih (i + 1) j' hj' hab'
                | some b0 =>
                    show (if |((b0 - a0 : ℤ) : ℚ) - expected| < 1000 then true
                      else scanAccounts treasury expected pre post ks (i + 1)) = true
                    by_cases hcond : |((b0 - a0 : ℤ) : ℚ) - expected| < 1000
                    · rw [if_pos hcond]
                    · rw [if_neg hcond]
                      exact ih (i + 1) j' hj' hab'
          · rw [if_neg hk]
            exact ih (i + 1) j' hj' hab'

theorem scanSigs_append_skip (fetchTx : String → Option Tx)
    (treasury : String) (expected : ℚ) (l rest : List SigInfo)
    (hl : ∀ sig ∈ l, txMatchAttempt treasury expected (fetchTx sig.signature) = false) :
    scanSigs fetchTx treasury expected (l ++ rest) =
      scanSigs fetchTx treasury expected rest := by
  induction l with
  | nil => rfl
  | cons sig l' ih =>
      rw [List.cons_append, scanSigs,
        if_neg (by simp [hl sig (List.mem_cons_self sig l')])]
      exact ih (fun sg hsg => hl sg (List.mem_cons_of_mem sig hsg))

/-- C6 counterexample: a transaction whose balance arrays are shorter than
its account list is not necessarily skipped — when the arrays still cover
the treasury's position and the delta matches, the scan confirms from it. -/
theorem anomaly_skip_counterexample :
    shortBalancesDemoTx.meta = some { err := false, preBalances := [0],
                                      postBalances := [5000] } ∧
    (shortBalancesDemoTx.meta.map (fun m => m.preBalances.length)) =
      some 1 ∧
    shortBalancesDemoTx.accountKeys.length = 2 ∧
    checkPaymentStatus anomalyDemoState "p1" 200
        (some [{ signature := "s1", blockTime := some 1 }])
        (fun _ => some shortBalancesDemoTx) =
      .ok (true, shortBalancesDemoResult) :=
  ⟨rfl, rfl, rfl, by with_unfolding_all rfl⟩

/-- C6 amended: on a pending, unexpired record, a batch of candidates
whose earlier entries are all anomalous in shape — `null` transaction,
missing metadata, reported failure, or balance arrays with no entry at any
position holding the treasury (in particular a treasury absent from the
account list) — raises no error: the anomalous entries are skipped and a
later well-formed matching transaction is still found and confirmed. -/
theorem checkPaymentStatus_anomaly_tolerance (s : SPS) (id : String) (now : ℕ)
    (p : Payment) (hp : lookupPayment s.pendingPayments id = some p)
    (hpend : p.status = .pending) (hexp : ¬ p.expiresAt < now)
    (fetchTx : String → Option Tx) (prefixSigs : List SigInfo) (good : SigInfo)
    (hanom : ∀ sig ∈ prefixSigs, AnomalousTx s.treasuryWallet (fetchTx sig.signature))
    (hgt : (p.createdAt : ℤ) ≤ blockTimeMs good.blockTime)
    (gtx : Tx) (hg : fetchTx good.signature = some gtx)
    (gm : TxMeta) (hgm : gtx.meta = some gm) (herr : gm.err = false)
    (j : ℕ) (a b : ℤ)
    (hj : gtx.accountKeys.get? j = some s.treasuryWallet)
    (ha : gm.preBalances.get? j = some a) (hb : gm.postBalances.get? j = some b)
    (hmatch : |((b - a : ℤ) : ℚ) - p.amountLamports| < 1000) :
    ∃ p', checkPaymentStatus s id now (some (prefixSigs ++ [good])) fetchTx =
        .ok (true, withStore s (setPayment s.pendingPayments id p')) ∧
      p'.status = .confirmed ∧ p'.transactionSignature = some good.signature := by
  have hgood : txMatchAttempt s.treasuryWallet p.amountLamports
      (fetchTx good.signature) = true := by
    rw [hg, txMatchAttempt, hgm]
    show (if gm.err = true then false
      else scanAccounts s.treasuryWallet p.amountLamports gm.preBalances
        gm.postBalances gtx.accountKeys 0) = true
    rw [if_neg (by simp [herr])]
    exact scanAccounts_true_of_match _ _ _ _ _ 0 j hj
      ⟨a, b, by rwa [Nat.zero_add], by rwa [Nat.zero_add], hmatch⟩
  have hfil : (prefixSigs ++ [good]).filter
      (fun sg => (p.createdAt : ℤ) ≤ blockTimeMs sg.blockTime) =
      prefixSigs.filter
        (fun sg => (p.createdAt : ℤ) ≤ blockTimeMs sg.blockTime) ++ [good] := by
    rw [List.filter_append]
    congr 1
    simp [hgt]
  have hskip : scanSigs fetchTx s.treasuryWallet p.amountLamports
      (prefixSigs.filter
        (fun sg => (p.createdAt : ℤ) ≤ blockTimeMs sg.blockTime) ++ [good]) =
      some good.signature := by
    rw [scanSigs_append_skip]
    · rw [scanSigs, if_pos (by simp [hgood])]
    · intro sig hsig
      exact txMatchAttempt_false_of_anomalous _ _ _
        (hanom sig (List.mem_of_mem_filter hsig))
  refine ⟨{ p with
              status := .confirmed
              confirmedAt := some now
              transactionSignature := some good.signature }, ?_, rfl, rfl⟩
  rw [checkPaymentStatus, hp]
  simp only [hpend, reduceCtorEq, if_false, if_neg hexp]
  rw [hfil, hskip]

/-- Concrete instantiation of `checkPaymentStatus_anomaly_tolerance`: a
`null` transaction and a treasury-free transaction are skipped and the
matching third transaction confirms the payment. -/
theorem checkPaymentStatus_anomaly_tolerance_witness :
    ∃ p', checkPaymentStatus anomalyDemoState "p1" 200
        (some ([{ signature := "a1", blockTime := some 1 },
                { signature := "a2", blockTime := some 1 }] ++
               [anomalyDemoGoodSig]))
        anomalyDemoFetch =
        .ok (true, withStore anomalyDemoState
          (setPayment anomalyDemoState.pendingPayments "p1" p')) ∧
      p'.status = .confirmed ∧
      p'.transactionSignature = some anomalyDemoGoodSig.signature :=
  checkPaymentStatus_anomaly_tolerance anomalyDemoState "p1" 200
    anomalyDemoPayment (by decide) (by decide) (by decide) anomalyDemoFetch
    [{ signature := "a1", blockTime := some 1 },
     { signature := "a2", blockTime := some 1 }]
    anomalyDemoGoodSig
    (by
      intro sig hsig
      simp only [List.mem_cons, List.not_mem_nil, or_false] at hsig
      rcases hsig with rfl | rfl
      · exact Or.inl (by decide)
      · refine Or.inr ⟨{ meta := some { err := false, preBalances := [1],
                                        postBalances := [6000] },
                         accountKeys := ["x"] }, by decide,
          Or.inr ⟨{ err := false, preBalances := [1], postBalances := [6000] },
            rfl, Or.inr ?_⟩⟩
        intro i hi
        cases i with
        | zero => simp [anomalyDemoState] at hi
        | succ i' => simp at hi)
    (by decide)
    (simpleTransferTx "T" 0 5000) (by decide) _ rfl (by decide) 0 0 5000
    (by decide) (by decide) (by decide)
    (by norm_num [anomalyDemoPayment])

theorem lamports_inv_eq : LAMPORTS_PER_SOL.inv = mkRat 1 1000000000 := by
  rw [show LAMPORTS_PER_SOL = mkRat 1000000000 1 by decide, Rat.mkRat_eq_divInt,
    Rat.inv_divInt, Rat.mkRat_eq_divInt]
  norm_num

/-- C10 counterexample: under binary64 semantics the round-trip
`(a * LAMPORTS_PER_SOL) / LAMPORTS_PER_SOL` is not the identity: for the
double `a = 0.9677999949201714` the listed amount differs from the stored
one by one ulp. -/
theorem amountSol_roundTrip_counterexample :
    fl roundTripDemoAmount = roundTripDemoAmount ∧
    0 < roundTripDemoAmount ∧
    jsListedAmountSol (jsStoredLamports roundTripDemoAmount) ≠
      roundTripDemoAmount := by
  have h1 : jsStoredLamports roundTripDemoAmount = mkRat 8118494779787309 8388608 := by
    rw [jsStoredLamports, jsMul, show LAMPORTS_PER_SOL = mkRat 1000000000 1 by decide,
      roundTripDemoAmount, Rat.mkRat_mul_mkRat]
    decide
  have h2 : jsListedAmountSol (mkRat 8118494779787309 8388608) =
      mkRat 8717167392983303 9007199254740992 := by
    rw [jsListedAmountSol, jsDiv, Rat.div_def, lamports_inv_eq, Rat.mkRat_mul_mkRat]
    decide
  refine ⟨by rw [roundTripDemoAmount]; decide, by decide, ?_⟩
  rw [h1, h2, roundTripDemoAmount]
  decide

/-- C10 amended: in exact arithmetic the round-trip is the identity — for
every record accepted by `createPaymentRequest` and still pending,
`getUserPendingPayments` reports the record's `amountSol` equal to the
caller-supplied amount (binary64 rounding, absent from this exact model,
is what breaks the identity in the source, see the counterexample). -/
theorem amountSol_roundTrip (s : SPS) (userId : String) (amountSol : ℚ)
    (metadata : String) (now : ℕ) (rand : String)
    (hu : userId ≠ "") (ha : 0 < amountSol) :
    ∃ resp s', createPaymentRequest s userId amountSol metadata now rand =
        (.ok resp, s') ∧
      ∃ sm ∈ getUserPendingPayments s' userId,
        sm.paymentId = resp.paymentId ∧ sm.amountSol = amountSol := by
  simp only [createPaymentRequest, if_neg hu, if_neg (not_le.2 ha)]
  refine ⟨_, _, rfl, ?_⟩
  refine ⟨mkSummary ("payment_" ++ userId ++ "_" ++ toString now ++ "_" ++ rand)
    { userId := userId
      amountLamports := amountSol * LAMPORTS_PER_SOL
      status := .pending
      createdAt := now
      expiresAt := now + s.paymentTimeout
      metadata := metadata
      confirmedAt := none
      transactionSignature := none }, ?_, rfl, ?_⟩
  · apply List.mem_map.2
    refine ⟨("payment_" ++ userId ++ "_" ++ toString now ++ "_" ++ rand,
      { userId := userId
        amountLamports := amountSol * LAMPORTS_PER_SOL
        status := .pending
        createdAt := now
        expiresAt := now + s.paymentTimeout
        metadata := metadata
        confirmedAt := none
        transactionSignature := none }), ?_, rfl⟩
    apply List.mem_filter.2
    exact ⟨mem_setPayment_self _ _ _, by simp⟩
  · show amountSol * LAMPORTS_PER_SOL / LAMPORTS_PER_SOL = amountSol
    rw [mul_div_assoc, div_self (by norm_num [LAMPORTS_PER_SOL]), mul_one]

/-- Concrete instantiation of `amountSol_roundTrip` at `amountSol = 3/2`. -/
theorem amountSol_roundTrip_witness :
    ∃ resp s', createPaymentRequest
        { treasuryWallet := "T", paymentTimeout := 1800000, pendingPayments := [] }
        "u1" (3 / 2) "m" 100 "abcd" = (.ok resp, s') ∧
      ∃ sm ∈ getUserPendingPayments s' "u1",
        sm.paymentId = resp.paymentId ∧ sm.amountSol = 3 / 2 :=
  amountSol_roundTrip
    { treasuryWallet := "T", paymentTimeout := 1800000, pendingPayments := [] }
    "u1" (3 / 2) "m" 100 "abcd" (by decide) (by norm_num)

/-- C9: the stored expected amount need not be an integral number of
lamports.  For `amountSol = 2 ^ −30` SOL — a positive amount, exactly
representable in binary64, whose product with `LAMPORTS_PER_SOL` is also
exactly representable, so the exact-rational model coincides with the
JavaScript computation (`jsStoredLamports` conjunct) — the record stores
`amountLamports = 1953125 / 2097152`, which has a fractional part. -/
theorem createPaymentRequest_nonIntegral_lamports :
    0 < nonIntegralDemoAmount ∧
    fl nonIntegralDemoAmount = nonIntegralDemoAmount ∧
    nonIntegralDemoAmount * LAMPORTS_PER_SOL = mkRat 1953125 2097152 ∧
    jsStoredLamports nonIntegralDemoAmount = mkRat 1953125 2097152 ∧
    (lookupPayment (createPaymentRequest
        { treasuryWallet := "T", paymentTimeout := 1800000, pendingPayments := [] }
        "u1" nonIntegralDemoAmount "" 100 "r").2.pendingPayments
      "payment_u1_100_r").map Payment.amountLamports =
      some (nonIntegralDemoAmount * LAMPORTS_PER_SOL) ∧
    (mkRat 1953125 2097152 : ℚ).den ≠ 1 := by
  have hprod : nonIntegralDemoAmount * LAMPORTS_PER_SOL = mkRat 1953125 2097152 := by
    rw [nonIntegralDemoAmount, show LAMPORTS_PER_SOL = mkRat 1000000000 1 by decide,
      Rat.mkRat_mul_mkRat]
    decide
  refine ⟨by decide, by rw [nonIntegralDemoAmount]; decide, hprod, ?_, ?_, by decide⟩
  · rw [jsStoredLamports, jsMul, hprod]
    decide
  · with_unfolding_all rfl

/-- Case analysis of the state effect of one `checkPaymentStatus` call:
either the state is untouched, or a not-confirmed record past expiry is
stamped expired, or a not-confirmed, unexpired record is stamped
confirmed. -/
theorem checkStateOf_cases (s : SPS) (id : String) (now : ℕ)
    (sr : Option (List SigInfo)) (ft : String → Option Tx) :
    checkStateOf s id now sr ft = s ∨
    (∃ p, lookupPayment s.pendingPayments id = some p ∧ p.status ≠ .confirmed ∧
      p.expiresAt < now ∧
      checkStateOf s id now sr ft =
        withStore s (setPayment s.pendingPayments id { p with status := .expired })) ∨
    (∃ p sigName, lookupPayment s.pendingPayments id = some p ∧
      p.status ≠ .confirmed ∧ ¬ p.expiresAt < now ∧
      checkStateOf s id now sr ft =
        withStore s (setPayment s.pendingPayments id
          { p with
              status := .confirmed
              confirmedAt := some now
              transactionSignature := some sigName })) := by
  rw [checkStateOf]
  rcases hres : checkPaymentStatus s id now sr ft with e | ⟨b, s'⟩
  · exact Or.inl rfl
  · rw [checkPaymentStatus] at hres
    split at hres
    · simp at hres
    · next payment hl =>
        by_cases hconf : payment.status = .confirmed
        · rw [if_pos hconf] at hres
          obtain ⟨-, rfl⟩ := Prod.mk.injEq .. ▸ Except.ok.inj hres
          exact Or.inl rfl
        · rw [if_neg hconf] at hres
          by_cases hexp : payment.expiresAt < now
          · rw [if_pos hexp] at hres
            obtain ⟨-, rfl⟩ := Prod.mk.injEq .. ▸ Except.ok.inj hres
            exact Or.inr (Or.inl ⟨payment, hl, hconf, hexp, rfl⟩)
          · rw [if_neg hexp] at hres
            cases sr with
            | none =>
                obtain ⟨-, rfl⟩ := Prod.mk.injEq .. ▸ Except.ok.inj hres
                exact Or.inl rfl
            | some sigs =>
                simp only [] at hres
                cases hscan : scanSigs ft s.treasuryWallet payment.amountLamports
                    (sigs.filter
                      (fun sig => (payment.createdAt : ℤ) ≤ blockTimeMs sig.blockTime)) with
                | none =>
                    rw [hscan] at hres
                    obtain ⟨-, rfl⟩ := Prod.mk.injEq .. ▸ Except.ok.inj hres
                    exact Or.inl rfl
                | some sigName =>
                    rw [hscan] at hres
                    obtain ⟨-, rfl⟩ := Prod.mk.injEq .. ▸ Except.ok.inj hres
                    exact Or.inr (Or.inr ⟨payment, sigName, hl, hconf, hexp, rfl⟩)

/-- One polling iteration of `waitForPaymentConfirmation` has exactly the
state effect of its inner `checkPaymentStatus` call. -/
theorem waitStep_state_eq (s : SPS) (id : String) (now : ℕ)
    (sr : Option (List SigInfo)) (ft : String → Option Tx) :
    (waitForPaymentConfirmationStep s id now sr ft).2 =
      checkStateOf s id now sr ft := by
  rw [waitForPaymentConfirmationStep, checkStateOf]
  cases hl : lookupPayment s.pendingPayments id with
  | none =>
      rw [checkPaymentStatus, hl]
  | some p =>
      rcases hres : checkPaymentStatus s id now sr ft with e | ⟨b, s'⟩
      · rfl
      · cases b
        · by_cases hexp : p.expiresAt < now
          · simp [if_pos hexp]
          · simp [if_neg hexp]
        · rfl

theorem WFStore_mono (s : SPS) (t t' : ℕ) (h : WFStore s t) (htt : t ≤ t') :
    WFStore s t' :=
  ⟨h.1, fun kv hkv hst => lt_of_lt_of_le (h.2 kv hkv hst) htt⟩

/-- The state effect of one `checkPaymentStatus` call only moves statuses
forward and preserves store well-formedness. -/
theorem checkStateOf_spec (s : SPS) (id : String) (now t : ℕ)
    (sr : Option (List SigInfo)) (ft : String → Option Tx)
    (hwf : WFStore s t) (ht : t ≤ now) :
    (∀ id', StatusStep (statusOf s id') (statusOf (checkStateOf s id now sr ft) id')) ∧
    WFStore (checkStateOf s id now sr ft) now := by
  rcases checkStateOf_cases s id now sr ft with h | ⟨p, hl, hconf, hexp, h⟩ |
    ⟨p, sigName, hl, hconf, hexp, h⟩
  · rw [h]
    exact ⟨fun id' => Or.inl rfl, WFStore_mono s t now hwf ht⟩
  · rw [h]
    constructor
    · intro id'
      by_cases hid : id' = id
      · subst hid
        rw [statusOf, statusOf, hl]
        show StatusStep (some p.status)
          ((lookupPayment (setPayment s.pendingPayments id'
            { p with status := .expired }) id').map Payment.status)
        rw [lookupPayment_setPayment_self]
        cases hst : p.status with
        | pending => exact Or.inr (Or.inl ⟨rfl, Or.inr rfl⟩)
        | confirmed => exact absurd hst hconf
        | expired => exact Or.inl rfl
      · rw [statusOf, statusOf]
        show StatusStep ((lookupPayment s.pendingPayments id').map Payment.status)
          ((lookupPayment (setPayment s.pendingPayments id
            { p with status := .expired }) id').map Payment.status)
        rw [lookupPayment_setPayment_ne _ _ _ _ hid]
        exact Or.inl rfl
    · constructor
      · show ((setPayment s.pendingPayments id _).map Prod.fst).Nodup
        rw [setPayment_map_fst _ _ _ p hl]
        exact hwf.1
      · intro kv hkv hst
        rcases mem_setPayment _ _ _ _ hkv with rfl | hmem
        · exact hexp
        · exact lt_of_lt_of_le (hwf.2 kv hmem hst) ht
  · rw [h]
    have hpend : p.status = .pending := by
      cases hst : p.status with
      | pending => rfl
      | confirmed => exact absurd hst hconf
      | expired =>
          exact absurd (lt_of_lt_of_le (hwf.2 (id, p)
            (lookupPayment_mem s.pendingPayments id p hl) hst) ht) hexp
    constructor
    · intro id'
      by_cases hid : id' = id
      · subst hid
        rw [statusOf, statusOf, hl]
        show StatusStep (some p.status)
          ((lookupPayment (setPayment s.pendingPayments id'
            { p with
                status := .confirmed
                confirmedAt := some now
                transactionSignature := some sigName }) id').map Payment.status)
        rw [lookupPayment_setPayment_self]
        rw [hpend]
        exact Or.inr (Or.inl ⟨rfl, Or.inl rfl⟩)
      · rw [statusOf, statusOf]
        show StatusStep ((lookupPayment s.pendingPayments id').map Payment.status)
          ((lookupPayment (setPayment s.pendingPayments id _) id').map Payment.status)
        rw [lookupPayment_setPayment_ne _ _ _ _ hid]
        exact Or.inl rfl
    · constructor
      · show ((setPayment s.pendingPayments id _).map Prod.fst).Nodup
        rw [setPayment_map_fst _ _ _ p hl]
        exact hwf.1
      · intro kv hkv hst
        rcases mem_setPayment _ _ _ _ hkv with rfl | hmem
        · simp at hst
        · exact lt_of_lt_of_le (hwf.2 kv hmem hst) ht

/-- A sweep only deletes terminal records and leaves every other record's
status unchanged, and it preserves store well-formedness. -/
theorem cleanup_spec (s : SPS) (now t : ℕ) (hwf : WFStore s t) (ht : t ≤ now) :
    (∀ id', StatusStep (statusOf s id') (statusOf (cleanupExpiredPayments s now) id')) ∧
    WFStore (cleanupExpiredPayments s now) now := by
  have hcl : (cleanupExpiredPayments s now).pendingPayments =
      s.pendingPayments.filter
        (fun kv => ¬((kv.2.status = .expired ∨ kv.2.status = .confirmed) ∧
          (86400000 : ℤ) < (now : ℤ) - (kv.2.createdAt : ℤ))) := rfl
  constructor
  · intro id'
    rw [statusOf, statusOf, hcl, lookupPayment_filter _ _ _ hwf.1]
    cases hl : lookupPayment s.pendingPayments id' with
    | none => exact Or.inl rfl
    | some p =>
        by_cases hq : (p.status = .expired ∨ p.status = .confirmed) ∧
            (86400000 : ℤ) < (now : ℤ) - (p.createdAt : ℤ)
        · have hb : (decide (¬((p.status = .expired ∨ p.status = .confirmed) ∧
              (86400000 : ℤ) < (now : ℤ) - (p.createdAt : ℤ)))) = false :=
            decide_eq_false (not_not_intro hq)
          show StatusStep (some p.status)
            ((if (decide (¬((p.status = .expired ∨ p.status = .confirmed) ∧
                (86400000 : ℤ) < (now : ℤ) - (p.createdAt : ℤ)))) = true
              then some p else none).map Payment.status)
          rw [hb]
          simp only [Bool.false_eq_true, if_false, Option.map_none']
          rcases hq.1 with h | h
          · exact Or.inr (Or.inr ⟨Or.inr (by rw [h]), rfl⟩)
          · exact Or.inr (Or.inr ⟨Or.inl (by rw [h]), rfl⟩)
        · have hb : (decide (¬((p.status = .expired ∨ p.status = .confirmed) ∧
              (86400000 : ℤ) < (now : ℤ) - (p.createdAt : ℤ)))) = true :=
            decide_eq_true hq
          show StatusStep (some p.status)
            ((if (decide (¬((p.status = .expired ∨ p.status = .confirmed) ∧
                (86400000 : ℤ) < (now : ℤ) - (p.createdAt : ℤ)))) = true
              then some p else none).map Payment.status)
          rw [hb]
          simp only [if_true, Option.map_some']
          exact Or.inl rfl
  · constructor
    · rw [hcl]
      exact hwf.1.sublist (List.Sublist.map Prod.fst (List.filter_sublist _))
    · intro kv hkv hst
      rw [hcl] at hkv
      exact lt_of_lt_of_le (hwf.2 kv (List.mem_of_mem_filter hkv) hst) ht

/-- Every operation of the interface only moves statuses forward and
preserves store well-formedness at its own clock reading. -/
theorem applyOp_spec (s : SPS) (op : Op) (t : ℕ)
    (hwf : WFStore s t) (ht : t ≤ opNow op) :
    (∀ id', StatusStep (statusOf s id') (statusOf (applyOp s op) id')) ∧
    WFStore (applyOp s op) (opNow op) := by
  cases op with
  | check id now sr ft => exact checkStateOf_spec s id now t sr ft hwf ht
  | waitStep id now sr ft =>
      have h := checkStateOf_spec s id now t sr ft hwf ht
      rw [show applyOp s (Op.waitStep id now sr ft) = checkStateOf s id now sr ft
        from waitStep_state_eq s id now sr ft]
      exact h
  | listPend u now => exact ⟨fun id' => Or.inl rfl, WFStore_mono s t now hwf ht⟩
  | cleanup now => exact cleanup_spec s now t hwf ht

/-- C1 amended: starting from a well-formed store (unique ids; expired
records already past expiry — any state the system itself produces) and
running any sequence of `checkPaymentStatus`, `waitForPaymentConfirmation`
iterations, `getUserPendingPayments` and `cleanupExpiredPayments` calls
whose clock readings are non-decreasing, every single step moves every
record's status only along `pending → confirmed`, `pending → expired`,
deletes a terminal record (sweep) or leaves it unchanged: no operation
changes a status that is already `confirmed` or `expired`. -/
theorem statusMonotone (s : SPS) (t : ℕ) (pre : List Op) (op : Op) (post : List Op)
    (hwf : WFStore s t) (hmono : monoFrom t (pre ++ op :: post)) (id : String) :
    StatusStep (statusOf (runOps s pre) id) (statusOf (runOps s (pre ++ [op])) id) := by
  induction pre generalizing s t with
  | nil => exact (applyOp_spec s op t hwf hmono.1).1 id
  | cons q pre' ih =>
      have hstep := applyOp_spec s q t hwf hmono.1
      exact ih (applyOp s q) (opNow q) hstep.2 hmono.2

/-- C1 counterexample: with clock readings that are not non-decreasing the
claimed invariant fails — at clock 11 the record expires, then a call at
clock 5 (before the stored `expiresAt` of 10) finds a matching transaction
and moves the already-expired record to `confirmed`. -/
theorem statusMonotone_counterexample :
    opNow backclockOp1 = 11 ∧ opNow backclockOp2 = 5 ∧
    statusOf (runOps backclockDemoState [backclockOp1]) "p1" = some .expired ∧
    statusOf (runOps backclockDemoState [backclockOp1, backclockOp2]) "p1" =
      some .confirmed :=
  ⟨rfl, rfl, by with_unfolding_all rfl, by with_unfolding_all rfl⟩

/-- Concrete instantiation of `statusMonotone`: one step of a monotone
trace on a fresh pending record. -/
theorem statusMonotone_witness :
    StatusStep
      (statusOf (runOps monotoneDemoState [Op.cleanup 150]) "p1")
      (statusOf (runOps monotoneDemoState
        [Op.cleanup 150, Op.check "p1" 200 (some []) (fun _ => none)]) "p1") :=
  statusMonotone monotoneDemoState 100 [Op.cleanup 150]
    (Op.check "p1" 200 (some []) (fun _ => none)) []
    ⟨by decide, by decide⟩ ⟨by decide, by decide, trivial⟩ "p1"
